import Mathlib

/-!
Shallow embedding of the inventory-reconciliation core of `src/osquery.py`
(class `OsQuery`): the result-normalization helper `unfold`, the System
resolution `get_sys`, and the software reconciliation `upsert_software`,
together with a model of the neo4j store as used by the code (nodes with
string attributes, labels, relationships, and the three Cypher `MATCH`
queries the code issues).
-/

set_option autoImplicit false

/-- A Python value as it can reach `OsQuery.unfold`: `None`, a neo4j `Node`
(identified by its id), a `QuerySequence` (a list of rows, each row a list of
cells), a plain Python `list`, or any other value (modelled as a string). -/
inductive PyVal where
  | none
  | node (id : Nat)
  | qseq (rows : List (List PyVal))
  | plist (items : List PyVal)
  | str (s : String)

/-- A Python exception that `unfold` can raise: `IndexError`, from `res[0][0]`
on an empty row or from `res.pop()` on an empty list. -/
inductive PyErr where
  | indexError
deriving DecidableEq, Repr

theorem mem_of_getLast_eq {α : Type} : ∀ {l : List α} {a : α}, l.getLast? = some a → a ∈ l := by
  intro l
  induction l with
  | nil => intro a h; simp [List.getLast?] at h
  | cons x xs ih =>
    intro a h
    cases xs with
    | nil =>
      simp [List.getLast?] at h
      simp [h]
    | cons y ys =>
      rw [List.getLast?_cons_cons] at h
      exact List.mem_cons_of_mem x (ih h)

/-- `OsQuery.unfold` (src/osquery.py lines 299-312), faithfully:
a `QuerySequence` of length 1 returns `res[0][0]` (IndexError when the single
row is empty); otherwise, a Python `list` pops its LAST element, recurses on
it, but discards the recursive result and falls off the end of the function
(returning `None`; `pop` on an empty list raises IndexError); any other
`QuerySequence` returns `None`; anything else is returned unchanged. -/
def unfold : PyVal → Except PyErr PyVal
  | .qseq rows =>
    if rows.length = 1 then
      match rows with
      | (c :: _) :: _ => .ok c
      | [] :: _ => .error .indexError
      | [] => .error .indexError
    else
      .ok .none
  | .plist items =>
    match h : items.getLast? with
    | Option.none => .error .indexError
    | Option.some ret =>
      match unfold ret with
      | .error e => .error e
      | .ok _ => .ok .none
  | v => .ok v
termination_by v => sizeOf v
decreasing_by
  have hm := mem_of_getLast_eq h
  have := List.sizeOf_lt_of_mem hm
  simp
  omega

/-- A graph node: its store-assigned id and its property map, in the order the
properties were passed to `nodes.create`. All property values in this code are
strings (`vanished` is created as the string "0"). -/
structure GNode where
  id : Nat
  attrs : List (String × String)
deriving DecidableEq, Repr

/-- The graph store: a fresh-id counter, the node list, the label assignments
(label name, node id) and the relationships (from id, type, to id). -/
structure Store where
  nextId : Nat
  nodes : List GNode
  labels : List (String × Nat)
  rels : List (Nat × String × Nat)
deriving DecidableEq, Repr

/-- The empty store. -/
def stEmpty : Store := ⟨0, [], [], []⟩

/-- `gdb.nodes.create(...)`: allocate a fresh id and append the node. -/
def createNode (st : Store) (attrs : List (String × String)) : Store × Nat :=
  (⟨st.nextId + 1, st.nodes ++ [⟨st.nextId, attrs⟩], st.labels, st.rels⟩, st.nextId)

/-- `self._labels[L].add(node)`: attach label `l` to node `nid`. -/
def addLabel (st : Store) (l : String) (nid : Nat) : Store :=
  ⟨st.nextId, st.nodes, st.labels ++ [(l, nid)], st.rels⟩

/-- `a.relationships.create(t, b)`: add a relationship of type `t` from `a` to `b`. -/
def addRel (st : Store) (a : Nat) (t : String) (b : Nat) : Store :=
  ⟨st.nextId, st.nodes, st.labels, st.rels ++ [(a, t, b)]⟩

/-- Does node `nid` carry label `l`? -/
def hasLabelb (st : Store) (l : String) (nid : Nat) : Bool :=
  st.labels.any fun p => p.1 == l && p.2 == nid

/-- Is there a relationship of type `t` from `a` to `b`? -/
def hasRelb (st : Store) (a : Nat) (t : String) (b : Nat) : Bool :=
  st.rels.any fun r => r.1 == a && r.2.1 == t && r.2.2 == b

/-- Set property `k` of a property map to `v` (Python `node[k] = v`): replace
the first binding of `k`, or append one if absent. -/
def setAttr : List (String × String) → String → String → List (String × String)
  | [], k, v => [(k, v)]
  | (k', v') :: rest, k, v =>
    if k' == k then (k, v) :: rest else (k', v') :: setAttr rest k v

/-- Set property `k` of node `nid` to `v` in the store. -/
def setNodeAttr (st : Store) (nid : Nat) (k v : String) : Store :=
  ⟨st.nextId, st.nodes.map fun n => if n.id == nid then ⟨n.id, setAttr n.attrs k v⟩ else n,
   st.labels, st.rels⟩

/-- A software fact `{name, path, version, src}` as parsed from osqueryi. -/
structure SwFact where
  name : String
  path : String
  version : String
  src : String
deriving DecidableEq, Repr

/-- The configuration an `OsQuery` instance carries into the reconciliation:
`--sys-id` (the system guid), the discovered hostname, and the run timestamp
`self._now`, captured once in `__init__` (src/osquery.py line 220). -/
structure Cfg where
  sysId : String
  hostname : String
  now : String
deriving DecidableEq, Repr

/-- The Cypher query of `get_sys`:
`MATCH (me:SYSTEM {guid: g}) RETURN me` — all nodes labelled SYSTEM whose
`guid` property equals `g`, one single-cell row per match, in store order. -/
def matchSystem (st : Store) (g : String) : List GNode :=
  st.nodes.filter fun n => hasLabelb st "SYSTEM" n.id && (n.attrs.lookup "guid" == some g)

/-- The row predicate of the SW_BASE query: the node carries the SW_BASE
label and all four properties equal the fact's fields, by exact string
equality (case-sensitive, no normalization). -/
def swBaseMatch (st : Store) (sw : SwFact) (n : GNode) : Bool :=
  hasLabelb st "SW_BASE" n.id
    && (n.attrs.lookup "name" == some sw.name)
    && (n.attrs.lookup "path" == some sw.path)
    && (n.attrs.lookup "src" == some sw.src)
    && (n.attrs.lookup "version" == some sw.version)

/-- The first Cypher query of `upsert_software`:
`MATCH (node:SW_BASE {name, path, src, version}) RETURN node` — all nodes
labelled SW_BASE whose four properties equal the fact's, exactly. -/
def matchSwBase (st : Store) (sw : SwFact) : List GNode :=
  st.nodes.filter (swBaseMatch st sw)

/-- The second Cypher query of `upsert_software`:
`MATCH (me:SYSTEM {guid: g})-[:HAS]->(sw_inst:SW_INSTALLATION)<-[:PART_OF]-(node:SW_BASE {name, path, src, version}) RETURN sw_inst`
— one row per matching (me, sw_inst, node) path, returning the `sw_inst` node:
a structural join, not a field match on the installation itself. -/
def matchInst (st : Store) (g : String) (sw : SwFact) : List GNode :=
  (matchSystem st g).flatMap fun me =>
    ((st.nodes.filter fun i =>
        hasLabelb st "SW_INSTALLATION" i.id && hasRelb st me.id "HAS" i.id).flatMap
      fun i => (matchSwBase st sw).filter (fun b => hasRelb st b.id "PART_OF" i.id) |>.map
        fun _ => i)

/-- What `unfold` yields on a query result whose rows are the single-cell rows
of the node list `ns`: the unique node when there is exactly one row, `None`
otherwise (see `unfold_wrap` below, which proves this against `unfold`). -/
def unfoldRows (ns : List GNode) : Option GNode :=
  match ns with
  | [n] => some n
  | _ => Option.none

/-- `OsQuery.get_sys` (src/osquery.py lines 256-267): match SYSTEM nodes on the
configured guid, `unfold` the result; if `None`, create a node with the
hostname and guid and label it SYSTEM. Returns the store and the node id that
ends up in `self._system_node`. -/
def get_sys (cfg : Cfg) (st : Store) : Store × Nat :=
  match unfoldRows (matchSystem st cfg.sysId) with
  | some n => (st, n.id)
  | Option.none =>
    let p := createNode st [("name", cfg.hostname), ("guid", cfg.sysId)]
    (addLabel p.1 "SYSTEM" p.2, p.2)

/-- The properties `upsert_software` passes to `nodes.create` for a new
SW_BASE node (src/osquery.py line 279). -/
def baseAttrs (sw : SwFact) : List (String × String) :=
  [("name", sw.name), ("path", sw.path), ("version", sw.version), ("src", sw.src)]

/-- The properties `upsert_software` passes to `nodes.create` for a new
SW_INSTALLATION node (src/osquery.py line 289): `discovered` and `last_seen`
both set to `self._now`, `vanished` set to the string "0" (the false flag). -/
def instAttrs (now : String) : List (String × String) :=
  [("discovered", now), ("last_seen", now), ("vanished", "0")]

/-- The SW_BASE resolve-or-create step of `upsert_software`
(src/osquery.py lines 274-280, the first half of the method, factored out):
match on the four fields, unfold; if `None`, create and label. Returns the
store and the id bound to `sw_base`. -/
def ensure_base (st : Store) (sw : SwFact) : Store × Nat :=
  match unfoldRows (matchSwBase st sw) with
  | some b => (st, b.id)
  | Option.none =>
    let p := createNode st (baseAttrs sw)
    (addLabel p.1 "SW_BASE" p.2, p.2)

/-- `OsQuery.upsert_software` (src/osquery.py lines 269-295): resolve or
create the SW_BASE node, then query the structural join for the
SW_INSTALLATION node; if absent, create it with `discovered = last_seen =
self._now` and `vanished = "0"`, label it, and wire `PART_OF` from the base
and `HAS` from the system node; if present, set its `last_seen` to
`self._now`. -/
def upsert_software (cfg : Cfg) (sysNode : Nat) (st : Store) (sw : SwFact) : Store :=
  let p := ensure_base st sw
  match unfoldRows (matchInst p.1 cfg.sysId sw) with
  | some i => setNodeAttr p.1 i.id "last_seen" cfg.now
  | Option.none =>
    let q := createNode p.1 (instAttrs cfg.now)
    let st3 := addLabel q.1 "SW_INSTALLATION" q.2
    let st4 := addRel st3 p.2 "PART_OF" q.2
    addRel st4 sysNode "HAS" q.2

/-- One `Reconcile(host, fact)` call as the spec names it: `get_sys` (run on
`OsQuery` construction) followed by `upsert_software` for the fact. -/
def reconcile (cfg : Cfg) (st : Store) (sw : SwFact) : Store :=
  let p := get_sys cfg st
  upsert_software cfg p.2 p.1 sw

/-- One run of the program over a list of facts: `get_sys` once (in
`__init__`), then `upsert_software` for each fact with the same cached
`self._system_node` and the same `self._now`. -/
def reconcileRun (cfg : Cfg) (st : Store) (facts : List SwFact) : Store :=
  let p := get_sys cfg st
  facts.foldl (fun s sw => upsert_software cfg p.2 s sw) p.1

/-- Number of nodes in the store carrying label `l`. -/
def countLabel (st : Store) (l : String) : Nat :=
  (st.nodes.filter fun n => hasLabelb st l n.id).length

/-- Sanity: on a query result wrapping the node list `ns` into single-cell
rows (the shape every `gdb.query(..., returns=Node)` call in this code
produces), `unfold` computes exactly `unfoldRows`. -/
theorem unfold_wrap (ns : List GNode) :
    unfold (.qseq (ns.map fun n => [.node n.id])) =
      .ok (match unfoldRows ns with | some n => .node n.id | Option.none => .none) := by
  match ns with
  | [] => simp [unfold, unfoldRows]
  | [n] => simp [unfold, unfoldRows]
  | n :: m :: rest => simp [unfold, unfoldRows]

/-- The store produced by reconciling the fact `f` for host `(hn, gn)` against
an empty store: one SYSTEM node (id 0), one SW_BASE node (id 1), one
SW_INSTALLATION node (id 2) with `discovered = d` and `last_seen = s`, with
the `PART_OF` and `HAS` relationships. -/
def stRec (hn gn : String) (f : SwFact) (d s : String) : Store :=
  ⟨3, [⟨0, [("name", hn), ("guid", gn)]⟩,
       ⟨1, [("name", f.name), ("path", f.path), ("version", f.version), ("src", f.src)]⟩,
       ⟨2, [("discovered", d), ("last_seen", s), ("vanished", "0")]⟩],
   [("SYSTEM", 0), ("SW_BASE", 1), ("SW_INSTALLATION", 2)],
   [(1, "PART_OF", 2), (0, "HAS", 2)]⟩

/-- First `Reconcile` against an empty store creates the three nodes, with
`discovered = last_seen = now`. -/
theorem reconcile_empty (hn gn t : String) (f : SwFact) :
    reconcile ⟨gn, hn, t⟩ stEmpty f = stRec hn gn f t t := by
  simp [reconcile, get_sys, upsert_software, ensure_base, stEmpty, stRec,
    matchSystem, matchSwBase, swBaseMatch, matchInst, hasLabelb, hasRelb, List.lookup,
    unfoldRows, createNode, addLabel, addRel, baseAttrs, instAttrs]

/-- A further `Reconcile` of the same fact against the reconciled store finds
all three nodes and only rewrites `last_seen` to the new run's timestamp. -/
theorem reconcile_again (hn gn d s t : String) (f : SwFact) :
    reconcile ⟨gn, hn, t⟩ (stRec hn gn f d s) f = stRec hn gn f d t := by
  simp [reconcile, get_sys, upsert_software, ensure_base, stRec,
    matchSystem, matchSwBase, swBaseMatch, matchInst, hasLabelb, hasRelb, List.lookup,
    unfoldRows, createNode, addLabel, addRel, baseAttrs, instAttrs,
    setNodeAttr, setAttr]

/-- Folding further `Reconcile` calls over the reconciled store keeps
`discovered` and moves `last_seen` to the last timestamp of the sequence. -/
theorem fold_reconcile_stRec (hn gn : String) (f : SwFact) :
    ∀ (ts : List String) (d s : String),
      ts.foldl (fun st t => reconcile ⟨gn, hn, t⟩ st f) (stRec hn gn f d s)
        = stRec hn gn f d (ts.getLastD s) := by
  intro ts
  induction ts with
  | nil => intro d s; simp
  | cons t ts ih =>
    intro d s
    simp only [List.foldl_cons, reconcile_again, List.getLastD_cons]
    exact ih d t

/-- Claim C2: for every host identity and fact, calling `Reconcile` (`get_sys`
followed by `upsert_software`) N times with identical inputs starting from an
empty store leaves exactly one SYSTEM node, one SW_BASE node and one
SW_INSTALLATION node (three nodes in total), the final store is the store of
the first call with `last_seen` moved to the last call's timestamp, and each
call after the first maps the reconciled store to itself with only the
`last_seen` attribute of the installation node rewritten. -/
theorem reconcile_idempotent_from_empty (hn gn t0 : String) (f : SwFact) (ts : List String) :
    (t0 :: ts).foldl (fun st t => reconcile ⟨gn, hn, t⟩ st f) stEmpty
        = stRec hn gn f t0 (ts.getLastD t0)
      ∧ countLabel (stRec hn gn f t0 (ts.getLastD t0)) "SYSTEM" = 1
      ∧ countLabel (stRec hn gn f t0 (ts.getLastD t0)) "SW_BASE" = 1
      ∧ countLabel (stRec hn gn f t0 (ts.getLastD t0)) "SW_INSTALLATION" = 1
      ∧ (stRec hn gn f t0 (ts.getLastD t0)).nodes.length = 3
      ∧ ∀ (d s t' : String), reconcile ⟨gn, hn, t'⟩ (stRec hn gn f d s) f = stRec hn gn f d t' := by
  refine ⟨?_, rfl, rfl, rfl, rfl, fun d s t' => reconcile_again hn gn d s t' f⟩
  simp only [List.foldl_cons, reconcile_empty]
  exact fold_reconcile_stRec hn gn f ts t0 t0

theorem unfoldRows_of_two {ns : List GNode} (h : ns.length = 2) :
    unfoldRows ns = Option.none := by
  match ns with
  | [] => simp at h
  | [n] => simp at h
  | a :: b :: rest => simp [unfoldRows]

/-- Claim C1 (counterexample): seed the store with two SYSTEM nodes sharing
guid "AFFE001". `get_sys` does not fail: it treats the two-row result as
absent and creates a third SYSTEM node carrying the same guid, returning the
new node's id 2. -/
theorem get_sys_two_systems_creates_third :
    get_sys ⟨"AFFE001", "alpha", "t0"⟩
        ⟨2, [⟨0, [("name", "a"), ("guid", "AFFE001")]⟩,
             ⟨1, [("name", "b"), ("guid", "AFFE001")]⟩],
         [("SYSTEM", 0), ("SYSTEM", 1)], []⟩
      = (⟨3, [⟨0, [("name", "a"), ("guid", "AFFE001")]⟩,
              ⟨1, [("name", "b"), ("guid", "AFFE001")]⟩,
              ⟨2, [("name", "alpha"), ("guid", "AFFE001")]⟩],
          [("SYSTEM", 0), ("SYSTEM", 1), ("SYSTEM", 2)], []⟩, 2) := by
  decide

/-- Claim C1 (amended): if the store holds exactly two SYSTEM nodes with the
configured guid, `get_sys` does not fail and does not return either existing
node: the two-row query result is normalized to `None`, so `get_sys` creates
an additional System node with the configured hostname and guid, labels it
SYSTEM, and returns the fresh id. -/
theorem get_sys_duplicate_guid_creates_additional (cfg : Cfg) (st : Store)
    (h2 : (matchSystem st cfg.sysId).length = 2) :
    get_sys cfg st
      = (addLabel (createNode st [("name", cfg.hostname), ("guid", cfg.sysId)]).1
          "SYSTEM" st.nextId, st.nextId) := by
  simp [get_sys, unfoldRows_of_two h2, createNode, addLabel]

theorem get_sys_duplicate_guid_creates_additional_witness :
    get_sys ⟨"AFFE001", "alpha", "t0"⟩
        ⟨2, [⟨0, [("name", "a"), ("guid", "AFFE001")]⟩,
             ⟨1, [("name", "b"), ("guid", "AFFE001")]⟩],
         [("SYSTEM", 0), ("SYSTEM", 1)], []⟩
      = (addLabel (createNode
            ⟨2, [⟨0, [("name", "a"), ("guid", "AFFE001")]⟩,
                 ⟨1, [("name", "b"), ("guid", "AFFE001")]⟩],
             [("SYSTEM", 0), ("SYSTEM", 1)], []⟩
            [("name", "alpha"), ("guid", "AFFE001")]).1 "SYSTEM" 2, 2) :=
  get_sys_duplicate_guid_creates_additional ⟨"AFFE001", "alpha", "t0"⟩ _ (by decide)

/-- Claim C7: `get_sys` queries for SYSTEM nodes whose guid equals the
configured identifier; with exactly one match it returns that node and leaves
the store untouched; with no match it creates a node carrying the hostname
and guid, labels it SYSTEM, and returns it; and in every case the node list
is either unchanged or extended by the one new node — no existing node is
ever mutated. -/
theorem get_sys_resolve_or_create (cfg : Cfg) (st : Store) :
    (∀ n : GNode, matchSystem st cfg.sysId = [n] → get_sys cfg st = (st, n.id))
      ∧ (matchSystem st cfg.sysId = [] →
          get_sys cfg st
            = (addLabel (createNode st [("name", cfg.hostname), ("guid", cfg.sysId)]).1
                "SYSTEM" st.nextId, st.nextId))
      ∧ ((get_sys cfg st).1.nodes = st.nodes
          ∨ (get_sys cfg st).1.nodes
              = st.nodes ++ [⟨st.nextId, [("name", cfg.hostname), ("guid", cfg.sysId)]⟩]) := by
  refine ⟨fun n hm => ?_, fun hm => ?_, ?_⟩
  · simp [get_sys, hm, unfoldRows]
  · simp [get_sys, hm, unfoldRows, createNode, addLabel]
  · cases h : unfoldRows (matchSystem st cfg.sysId) with
    | none => right; simp [get_sys, h, createNode, addLabel]
    | some n => left; simp [get_sys, h]

theorem get_sys_resolve_or_create_witness :
    get_sys ⟨"AFFE001", "alpha", "t0"⟩
        ⟨1, [⟨0, [("name", "a"), ("guid", "AFFE001")]⟩], [("SYSTEM", 0)], []⟩
      = (⟨1, [⟨0, [("name", "a"), ("guid", "AFFE001")]⟩], [("SYSTEM", 0)], []⟩, 0)
    ∧ get_sys ⟨"AFFE001", "alpha", "t0"⟩ stEmpty
      = (addLabel (createNode stEmpty [("name", "alpha"), ("guid", "AFFE001")]).1
          "SYSTEM" 0, 0) :=
  ⟨(get_sys_resolve_or_create ⟨"AFFE001", "alpha", "t0"⟩ _).1
      ⟨0, [("name", "a"), ("guid", "AFFE001")]⟩ (by decide),
   (get_sys_resolve_or_create ⟨"AFFE001", "alpha", "t0"⟩ stEmpty).2.1 (by decide)⟩

/-- `unfold` on a nonempty Python list whose popped last element unfolds
normally: the recursive result is discarded and the function falls off its
end, returning `None`. -/
theorem unfold_plist_ok (items : List PyVal) (r v : PyVal) (hl : items.getLast? = some r)
    (hv : unfold r = .ok v) : unfold (.plist items) = .ok .none := by
  rw [unfold.eq_def]
  split
  · rename_i ret heq
    exact PyVal.noConfusion heq
  · rename_i ret heq
    injection heq with h3
    subst h3
    split
    · simp_all
    · rename_i ret1 heq2
      rw [hl] at heq2
      injection heq2 with h4
      rw [← h4]
      rw [hv]
  · rename_i h1 h2
    exact absurd rfl (h2 items)

/-- `unfold` on a nonempty Python list whose popped last element raises: the
exception propagates out of the recursive call. -/
theorem unfold_plist_err (items : List PyVal) (r : PyVal) (e : PyErr) (hl : items.getLast? = some r)
    (hv : unfold r = .error e) : unfold (.plist items) = .error e := by
  rw [unfold.eq_def]
  split
  · rename_i ret heq
    exact PyVal.noConfusion heq
  · rename_i ret heq
    injection heq with h3
    subst h3
    split
    · simp_all
    · rename_i ret1 heq2
      rw [hl] at heq2
      injection heq2 with h4
      rw [← h4]
      rw [hv]
  · rename_i h1 h2
    exact absurd rfl (h2 items)

/-- Claim C3 (counterexample): a query result with two rows holding two
distinct underlying nodes is normalized by `unfold` to `None` — treated as
absent, with no ambiguity error of any kind — and a one-row result nested
inside a list wrapper is also normalized to `None`, not to the single
underlying node reference. -/
theorem unfold_ambiguous_and_nested_counterexample :
    unfold (.qseq [[.node 0], [.node 1]]) = .ok .none
      ∧ unfold (.plist [.qseq [[.node 5]]]) = .ok .none := by
  constructor
  · simp [unfold]
  · exact unfold_plist_ok _ (.qseq [[.node 5]]) (.node 5) (by simp) (by simp [unfold])

/-- Claim C3 (amended): `unfold` maps a one-row query result to the row's
first cell and every other `QuerySequence` — zero rows, or two or more rows
whether distinct or not — to `None`; a one-element list wrapper whose content
unfolds normally is mapped to `None` (the recursive result is discarded, not
propagated); and a value that is neither a `QuerySequence` nor a list is
returned unchanged. No input is ever mapped to an ambiguity error. -/
theorem unfold_normalization :
    (∀ ns : List GNode, unfold (.qseq (ns.map fun n => [.node n.id]))
        = .ok (match unfoldRows ns with | some n => .node n.id | Option.none => .none))
      ∧ (∀ rows : List (List PyVal), rows.length ≠ 1 → unfold (.qseq rows) = .ok .none)
      ∧ (∀ v w : PyVal, unfold v = .ok w → unfold (.plist [v]) = .ok .none)
      ∧ (∀ s : String, unfold (.str s) = .ok (.str s))
      ∧ unfold PyVal.none = .ok PyVal.none
      ∧ (∀ i : Nat, unfold (.node i) = .ok (.node i)) := by
  refine ⟨unfold_wrap, fun rows hl => ?_, fun v w hv => ?_, fun s => ?_, ?_, fun i => ?_⟩
  · rw [unfold.eq_def]
    simp [hl]
  · exact unfold_plist_ok [v] v w (by simp) hv
  · simp [unfold]
  · simp [unfold]
  · simp [unfold]

theorem unfold_normalization_witness :
    unfold (.qseq []) = .ok .none ∧ unfold (.plist [.node 7]) = .ok .none :=
  ⟨unfold_normalization.2.1 [] (by decide),
   unfold_normalization.2.2.1 (.node 7) (.node 7) (by simp [unfold])⟩

/-- Claim C9 (counterexample): the empty Python list is a list input on which
`unfold` does not return `None`: `res.pop()` raises `IndexError` instead, so
the caller's creation branch is not reached. -/
theorem unfold_empty_list_raises :
    unfold (.plist []) = .error .indexError
      ∧ unfold (.plist []) ≠ .ok PyVal.none := by
  constructor
  · simp [unfold]
  · simp [unfold]

/-- Claim C9 (amended): on a nonempty Python list, `unfold` pops the last
element and recurses on it; when the recursion returns normally its result is
discarded and `unfold` returns `None` — regardless of what the recursion
found — so such a query result is treated as absent and triggers the
caller's creation branch; when the recursion raises, the exception
propagates. (On the empty list, `pop` raises `IndexError`.) -/
theorem unfold_list_discards_recursion :
    (∀ (items : List PyVal) (r v : PyVal), items.getLast? = some r →
        unfold r = .ok v → unfold (.plist items) = .ok .none)
      ∧ (∀ (items : List PyVal) (r : PyVal) (e : PyErr), items.getLast? = some r →
          unfold r = .error e → unfold (.plist items) = .error e) :=
  ⟨fun items r v hl hv => unfold_plist_ok items r v hl hv,
   fun items r e hl hv => unfold_plist_err items r e hl hv⟩

theorem unfold_list_discards_recursion_witness :
    unfold (.plist [PyVal.none]) = .ok PyVal.none
      ∧ unfold (.plist [.qseq [[]]]) = .error .indexError :=
  ⟨unfold_list_discards_recursion.1 [PyVal.none] PyVal.none PyVal.none (by simp)
      (by simp [unfold]),
   unfold_list_discards_recursion.2 [.qseq [[]]] (.qseq [[]]) .indexError (by simp)
      (by simp [unfold])⟩

/-- When the SW_BASE query unfolds to a node, `ensure_base` returns it and
leaves the store untouched. -/
theorem ensure_base_found {st : Store} {sw : SwFact} {b : GNode}
    (hB : unfoldRows (matchSwBase st sw) = some b) :
    ensure_base st sw = (st, b.id) := by
  simp [ensure_base, hB]

/-- When the SW_BASE query unfolds to `None`, `ensure_base` creates the node
with the fact's four fields and labels it SW_BASE. -/
theorem ensure_base_create {st : Store} {sw : SwFact}
    (hB : unfoldRows (matchSwBase st sw) = Option.none) :
    ensure_base st sw
      = (addLabel (createNode st (baseAttrs sw)).1 "SW_BASE" st.nextId, st.nextId) := by
  simp [ensure_base, hB, createNode, addLabel]

/-- `ensure_base` either keeps the node list or appends exactly the one new
SW_BASE node. -/
theorem ensure_base_nodes {st st1 : Store} {sw : SwFact} {b : Nat}
    (hB : ensure_base st sw = (st1, b)) :
    st1.nodes = st.nodes ∨ st1.nodes = st.nodes ++ [⟨st.nextId, baseAttrs sw⟩] := by
  cases hm : unfoldRows (matchSwBase st sw) with
  | none =>
    rw [ensure_base_create hm] at hB
    injection hB with h1 h2
    subst h1
    right
    simp [createNode, addLabel]
  | some n =>
    rw [ensure_base_found hm] at hB
    injection hB with h1 h2
    subst h1
    left
    rfl

/-- The found branch of `upsert_software`: the installation query unfolds to a
node and only its `last_seen` property is set. -/
theorem upsert_eq_found {cfg : Cfg} {sysNode : Nat} {st st1 : Store} {b : Nat} {sw : SwFact}
    {i : GNode} (hB : ensure_base st sw = (st1, b))
    (hI : unfoldRows (matchInst st1 cfg.sysId sw) = some i) :
    upsert_software cfg sysNode st sw = setNodeAttr st1 i.id "last_seen" cfg.now := by
  simp [upsert_software, hB, hI]

/-- The creation branch of `upsert_software`: the installation query unfolds
to `None` and exactly one SW_INSTALLATION node is created and wired up. -/
theorem upsert_eq_create {cfg : Cfg} {sysNode : Nat} {st st1 : Store} {b : Nat} {sw : SwFact}
    (hB : ensure_base st sw = (st1, b))
    (hI : unfoldRows (matchInst st1 cfg.sysId sw) = Option.none) :
    upsert_software cfg sysNode st sw
      = ⟨st1.nextId + 1,
         st1.nodes ++ [⟨st1.nextId, instAttrs cfg.now⟩],
         st1.labels ++ [("SW_INSTALLATION", st1.nextId)],
         st1.rels ++ [(b, "PART_OF", st1.nextId), (sysNode, "HAS", st1.nextId)]⟩ := by
  simp [upsert_software, hB, hI, createNode, addLabel, addRel]

/-- Looking up the key just set by `setAttr` yields the new value. -/
theorem lookup_setAttr_self : ∀ (l : List (String × String)) (k v : String),
    (setAttr l k v).lookup k = some v := by
  intro l k v
  induction l with
  | nil => simp [setAttr, List.lookup]
  | cons p rest ih =>
    by_cases h : p.1 = k
    · simp [setAttr, h, List.lookup]
    · have h2 : (k == p.1) = false := beq_eq_false_iff_ne.mpr fun hh => h hh.symm
      simp [setAttr, h, List.lookup, h2, ih]

/-- `setAttr` leaves every other key's lookup unchanged. -/
theorem lookup_setAttr_ne : ∀ (l : List (String × String)) (k k' v : String), k' ≠ k →
    (setAttr l k v).lookup k' = l.lookup k' := by
  intro l k k' v hne
  have hb : (k' == k) = false := beq_eq_false_iff_ne.mpr hne
  induction l with
  | nil => simp [setAttr, List.lookup, hb]
  | cons p rest ih =>
    by_cases h : p.1 = k
    · subst h
      simp [setAttr, List.lookup, hb]
    · simp [setAttr, h, List.lookup, ih]

/-- Claim C4: when the structural-join query finds no SW_INSTALLATION node
reachable from both the System (via HAS) and the SoftwareBase (via PART_OF),
`upsert_software` creates exactly one new node whose properties are
`discovered = now`, `last_seen = now` and `vanished = "0"` (the false flag),
tags it with the SW_INSTALLATION label, and creates a PART_OF relationship
from the SoftwareBase node to it and a HAS relationship from the System node
to it — and changes nothing else. -/
theorem installation_created_when_absent (cfg : Cfg) (sysNode : Nat) (st st1 : Store)
    (b : Nat) (sw : SwFact) (hB : ensure_base st sw = (st1, b))
    (hI : unfoldRows (matchInst st1 cfg.sysId sw) = Option.none) :
    upsert_software cfg sysNode st sw
      = ⟨st1.nextId + 1,
         st1.nodes ++ [⟨st1.nextId, instAttrs cfg.now⟩],
         st1.labels ++ [("SW_INSTALLATION", st1.nextId)],
         st1.rels ++ [(b, "PART_OF", st1.nextId), (sysNode, "HAS", st1.nextId)]⟩
      ∧ instAttrs cfg.now
          = [("discovered", cfg.now), ("last_seen", cfg.now), ("vanished", "0")] :=
  ⟨upsert_eq_create hB hI, rfl⟩

theorem installation_created_when_absent_witness :
    upsert_software ⟨"AFFE001", "alpha", "t0"⟩ 0
        ⟨1, [⟨0, [("name", "alpha"), ("guid", "AFFE001")]⟩], [("SYSTEM", 0)], []⟩
        ⟨"curl", "/usr/bin/curl", "7.64.1", "apt"⟩
      = ⟨3, [⟨0, [("name", "alpha"), ("guid", "AFFE001")]⟩,
             ⟨1, baseAttrs ⟨"curl", "/usr/bin/curl", "7.64.1", "apt"⟩⟩,
             ⟨2, instAttrs "t0"⟩],
         [("SYSTEM", 0), ("SW_BASE", 1), ("SW_INSTALLATION", 2)],
         [(1, "PART_OF", 2), (0, "HAS", 2)]⟩
      ∧ instAttrs "t0" = [("discovered", "t0"), ("last_seen", "t0"), ("vanished", "0")] :=
  installation_created_when_absent ⟨"AFFE001", "alpha", "t0"⟩ 0
    ⟨1, [⟨0, [("name", "alpha"), ("guid", "AFFE001")]⟩], [("SYSTEM", 0)], []⟩
    ⟨2, [⟨0, [("name", "alpha"), ("guid", "AFFE001")]⟩,
         ⟨1, baseAttrs ⟨"curl", "/usr/bin/curl", "7.64.1", "apt"⟩⟩],
     [("SYSTEM", 0), ("SW_BASE", 1)], []⟩
    1 ⟨"curl", "/usr/bin/curl", "7.64.1", "apt"⟩ (by decide) (by decide)

theorem installation_found_touches_only_last_seen (cfg : Cfg) (sysNode : Nat) (st : Store)
    (sw : SwFact) (b i : GNode)
    (hB : unfoldRows (matchSwBase st sw) = some b)
    (hI : unfoldRows (matchInst st cfg.sysId sw) = some i) :
    upsert_software cfg sysNode st sw = setNodeAttr st i.id "last_seen" cfg.now
      ∧ (upsert_software cfg sysNode st sw).nextId = st.nextId
      ∧ (upsert_software cfg sysNode st sw).labels = st.labels
      ∧ (upsert_software cfg sysNode st sw).rels = st.rels
      ∧ (upsert_software cfg sysNode st sw).nodes.length = st.nodes.length
      ∧ (∀ n ∈ st.nodes, n.id ≠ i.id → n ∈ (upsert_software cfg sysNode st sw).nodes)
      ∧ (∀ n ∈ st.nodes, n.id = i.id →
          GNode.mk n.id (setAttr n.attrs "last_seen" cfg.now)
            ∈ (upsert_software cfg sysNode st sw).nodes)
      ∧ (∀ n ∈ st.nodes, ∃ m, m ∈ (upsert_software cfg sysNode st sw).nodes ∧ m.id = n.id
          ∧ m.attrs.lookup "discovered" = n.attrs.lookup "discovered"
          ∧ m.attrs.lookup "vanished" = n.attrs.lookup "vanished"
          ∧ (n.id = i.id → m.attrs.lookup "last_seen" = some cfg.now)) := by
  have he : upsert_software cfg sysNode st sw = setNodeAttr st i.id "last_seen" cfg.now :=
    upsert_eq_found (ensure_base_found hB) hI
  rw [he]
  refine ⟨rfl, rfl, rfl, rfl, by simp [setNodeAttr], ?_, ?_, ?_⟩
  · intro n hn hne
    have hb : (n.id == i.id) = false := beq_eq_false_iff_ne.mpr hne
    have := List.mem_map_of_mem
      (fun n : GNode => if n.id == i.id then GNode.mk n.id (setAttr n.attrs "last_seen" cfg.now) else n) hn
    simp only [hb, if_false] at this
    simpa [setNodeAttr] using this
  · intro n hn heq
    have hb : (n.id == i.id) = true := beq_iff_eq.mpr heq
    have := List.mem_map_of_mem
      (fun n : GNode => if n.id == i.id then GNode.mk n.id (setAttr n.attrs "last_seen" cfg.now) else n) hn
    simp only [hb, if_true] at this
    simpa [setNodeAttr] using this
  · intro n hn
    by_cases heq : n.id = i.id
    · refine ⟨GNode.mk n.id (setAttr n.attrs "last_seen" cfg.now), ?_, rfl, ?_, ?_, fun _ => ?_⟩
      · have hb : (n.id == i.id) = true := beq_iff_eq.mpr heq
        have := List.mem_map_of_mem
          (fun n : GNode => if n.id == i.id then GNode.mk n.id (setAttr n.attrs "last_seen" cfg.now) else n) hn
        simp only [hb, if_true] at this
        simpa [setNodeAttr] using this
      · exact lookup_setAttr_ne n.attrs "last_seen" "discovered" cfg.now (by decide)
      · exact lookup_setAttr_ne n.attrs "last_seen" "vanished" cfg.now (by decide)
      · exact lookup_setAttr_self n.attrs "last_seen" cfg.now
    · refine ⟨n, ?_, rfl, rfl, rfl, fun hc => absurd hc heq⟩
      have hb : (n.id == i.id) = false := beq_eq_false_iff_ne.mpr heq
      have := List.mem_map_of_mem
        (fun n : GNode => if n.id == i.id then GNode.mk n.id (setAttr n.attrs "last_seen" cfg.now) else n) hn
      simp only [hb, if_false] at this
      simpa [setNodeAttr] using this


theorem installation_found_touches_only_last_seen_witness :
    upsert_software ⟨"AFFE001", "alpha", "t1"⟩ 0
        (stRec "alpha" "AFFE001" ⟨"curl", "/usr/bin/curl", "7.64.1", "apt"⟩ "t0" "t0")
        ⟨"curl", "/usr/bin/curl", "7.64.1", "apt"⟩
      = setNodeAttr
          (stRec "alpha" "AFFE001" ⟨"curl", "/usr/bin/curl", "7.64.1", "apt"⟩ "t0" "t0")
          2 "last_seen" "t1" :=
  (installation_found_touches_only_last_seen ⟨"AFFE001", "alpha", "t1"⟩ 0
      (stRec "alpha" "AFFE001" ⟨"curl", "/usr/bin/curl", "7.64.1", "apt"⟩ "t0" "t0")
      ⟨"curl", "/usr/bin/curl", "7.64.1", "apt"⟩
      ⟨1, baseAttrs ⟨"curl", "/usr/bin/curl", "7.64.1", "apt"⟩⟩
      ⟨2, instAttrs "t0"⟩ (by decide) (by decide)).1

def WfStore (st : Store) : Prop := ∀ n ∈ st.nodes, n.id < st.nextId

/-- Creating and labelling a fresh SW_BASE node does not change whether an
old node (one with a different id) matches a SW_BASE query. -/
theorem swBaseMatch_shift (st : Store) (a : List (String × String)) (f2 : SwFact) (n : GNode)
    (hid : n.id ≠ st.nextId) :
    swBaseMatch (addLabel (createNode st a).1 "SW_BASE" st.nextId) f2 n
      = swBaseMatch st f2 n := by
  have hb : (st.nextId == n.id) = false := beq_eq_false_iff_ne.mpr (Ne.symm hid)
  simp [swBaseMatch, hasLabelb, addLabel, createNode, List.any_append, hb]

/-- After creating a SW_BASE node for `f1`, a fact `f2` with a different
`version` still has no match, provided it had none before. -/
theorem matchSwBase_create_other (st : Store) (f1 f2 : SwFact) (hwf : WfStore st)
    (hv : f1.version ≠ f2.version) (h2 : matchSwBase st f2 = []) :
    matchSwBase (addLabel (createNode st (baseAttrs f1)).1 "SW_BASE" st.nextId) f2 = [] := by
  have hnodes : (addLabel (createNode st (baseAttrs f1)).1 "SW_BASE" st.nextId).nodes
      = st.nodes ++ [⟨st.nextId, baseAttrs f1⟩] := rfl
  rw [matchSwBase, hnodes, List.filter_append]
  have hold : st.nodes.filter
      (swBaseMatch (addLabel (createNode st (baseAttrs f1)).1 "SW_BASE" st.nextId) f2) = [] := by
    rw [List.filter_congr fun n hn =>
      swBaseMatch_shift st (baseAttrs f1) f2 n (Nat.ne_of_lt (hwf n hn))]
    rw [matchSwBase] at h2
    exact h2
  have hvv : (some f1.version == some f2.version) = false := by
    apply beq_eq_false_iff_ne.mpr
    intro hh
    exact hv (Option.some.inj hh)
  rw [hold]
  simp [List.filter, swBaseMatch, baseAttrs, List.lookup, hvv]

/-- Claim C6: a node is a SW_BASE match for a fact exactly when it carries
the SW_BASE label and all four of its `name`, `path`, `src` and `version`
properties are string-equal to the fact's fields; when there is no match,
`ensure_base` creates a new labelled node with those four fields; and two
facts differing only in `version` (matched against a well-formed store
holding neither) produce two distinct SW_BASE nodes, one per version. -/
theorem ensure_base_exact_match (st : Store) :
    (∀ (sw : SwFact) (n : GNode), n ∈ matchSwBase st sw ↔
        n ∈ st.nodes ∧ hasLabelb st "SW_BASE" n.id = true
          ∧ n.attrs.lookup "name" = some sw.name
          ∧ n.attrs.lookup "path" = some sw.path
          ∧ n.attrs.lookup "src" = some sw.src
          ∧ n.attrs.lookup "version" = some sw.version)
      ∧ (∀ sw : SwFact, unfoldRows (matchSwBase st sw) = Option.none →
          ensure_base st sw
            = (addLabel (createNode st (baseAttrs sw)).1 "SW_BASE" st.nextId, st.nextId))
      ∧ (∀ (nm p sc v1 v2 : String), v1 ≠ v2 → WfStore st →
          matchSwBase st ⟨nm, p, v1, sc⟩ = [] → matchSwBase st ⟨nm, p, v2, sc⟩ = [] →
          (ensure_base st ⟨nm, p, v1, sc⟩).2 = st.nextId
            ∧ (ensure_base (ensure_base st ⟨nm, p, v1, sc⟩).1 ⟨nm, p, v2, sc⟩).2
                = st.nextId + 1
            ∧ st.nextId ≠ st.nextId + 1
            ∧ GNode.mk st.nextId (baseAttrs ⟨nm, p, v1, sc⟩)
                ∈ (ensure_base (ensure_base st ⟨nm, p, v1, sc⟩).1 ⟨nm, p, v2, sc⟩).1.nodes
            ∧ GNode.mk (st.nextId + 1) (baseAttrs ⟨nm, p, v2, sc⟩)
                ∈ (ensure_base (ensure_base st ⟨nm, p, v1, sc⟩).1 ⟨nm, p, v2, sc⟩).1.nodes) := by
  refine ⟨?_, fun sw hm => ensure_base_create hm, ?_⟩
  · intro sw n
    simp [matchSwBase, swBaseMatch, List.mem_filter, Bool.and_eq_true, beq_iff_eq, and_assoc]
  · intro nm p sc v1 v2 hv hwf h1 h2
    have e1 : ensure_base st ⟨nm, p, v1, sc⟩
        = (addLabel (createNode st (baseAttrs ⟨nm, p, v1, sc⟩)).1 "SW_BASE" st.nextId,
           st.nextId) :=
      ensure_base_create (by simp [h1, unfoldRows])
    have hm2 : matchSwBase
        (addLabel (createNode st (baseAttrs ⟨nm, p, v1, sc⟩)).1 "SW_BASE" st.nextId)
        ⟨nm, p, v2, sc⟩ = [] :=
      matchSwBase_create_other st ⟨nm, p, v1, sc⟩ ⟨nm, p, v2, sc⟩ hwf hv h2
    have e2 : ensure_base
        (addLabel (createNode st (baseAttrs ⟨nm, p, v1, sc⟩)).1 "SW_BASE" st.nextId)
        ⟨nm, p, v2, sc⟩
        = (addLabel (createNode
            (addLabel (createNode st (baseAttrs ⟨nm, p, v1, sc⟩)).1 "SW_BASE" st.nextId)
            (baseAttrs ⟨nm, p, v2, sc⟩)).1 "SW_BASE" (st.nextId + 1), st.nextId + 1) :=
      ensure_base_create (by simp [hm2, unfoldRows])
    refine ⟨by rw [e1], ?_, Nat.ne_of_lt (Nat.lt_succ_self _), ?_, ?_⟩
    · rw [e1]
      rw [show (addLabel (createNode st (baseAttrs ⟨nm, p, v1, sc⟩)).1 "SW_BASE" st.nextId,
          st.nextId).1
          = addLabel (createNode st (baseAttrs ⟨nm, p, v1, sc⟩)).1 "SW_BASE" st.nextId from rfl]
      rw [e2]
    · rw [e1]
      rw [show (addLabel (createNode st (baseAttrs ⟨nm, p, v1, sc⟩)).1 "SW_BASE" st.nextId,
          st.nextId).1
          = addLabel (createNode st (baseAttrs ⟨nm, p, v1, sc⟩)).1 "SW_BASE" st.nextId from rfl]
      rw [e2]
      simp [addLabel, createNode]
    · rw [e1]
      rw [show (addLabel (createNode st (baseAttrs ⟨nm, p, v1, sc⟩)).1 "SW_BASE" st.nextId,
          st.nextId).1
          = addLabel (createNode st (baseAttrs ⟨nm, p, v1, sc⟩)).1 "SW_BASE" st.nextId from rfl]
      rw [e2]
      simp [addLabel, createNode]


theorem ensure_base_exact_match_witness :
    ensure_base stEmpty ⟨"curl", "/usr/bin/curl", "7.64.1", "apt"⟩
        = (addLabel (createNode stEmpty (baseAttrs ⟨"curl", "/usr/bin/curl", "7.64.1", "apt"⟩)).1
            "SW_BASE" 0, 0)
      ∧ ((ensure_base stEmpty ⟨"curl", "/usr/bin/curl", "7.64.1", "apt"⟩).2 = 0
          ∧ (ensure_base (ensure_base stEmpty ⟨"curl", "/usr/bin/curl", "7.64.1", "apt"⟩).1
              ⟨"curl", "/usr/bin/curl", "7.65.0", "apt"⟩).2 = 0 + 1
          ∧ (0 : Nat) ≠ 0 + 1
          ∧ GNode.mk 0 (baseAttrs ⟨"curl", "/usr/bin/curl", "7.64.1", "apt"⟩)
              ∈ (ensure_base (ensure_base stEmpty ⟨"curl", "/usr/bin/curl", "7.64.1", "apt"⟩).1
                  ⟨"curl", "/usr/bin/curl", "7.65.0", "apt"⟩).1.nodes
          ∧ GNode.mk (0 + 1) (baseAttrs ⟨"curl", "/usr/bin/curl", "7.65.0", "apt"⟩)
              ∈ (ensure_base (ensure_base stEmpty ⟨"curl", "/usr/bin/curl", "7.64.1", "apt"⟩).1
                  ⟨"curl", "/usr/bin/curl", "7.65.0", "apt"⟩).1.nodes) :=
  ⟨(ensure_base_exact_match stEmpty).2.1 ⟨"curl", "/usr/bin/curl", "7.64.1", "apt"⟩ (by decide),
   (ensure_base_exact_match stEmpty).2.2 "curl" "/usr/bin/curl" "apt" "7.64.1" "7.65.0"
      (by decide) (fun n hn => absurd hn (List.not_mem_nil n)) (by decide) (by decide)⟩


/-- Every node of a store after `setNodeAttr` is either an untouched old node
or an old node with the one property rewritten. -/
theorem setNodeAttr_nodes_cases (st : Store) (nid : Nat) (k v : String) :
    ∀ n ∈ (setNodeAttr st nid k v).nodes,
      n ∈ st.nodes ∨ ∃ m, m ∈ st.nodes ∧ n.id = m.id ∧ n.attrs = setAttr m.attrs k v := by
  intro n hn
  simp only [setNodeAttr, List.mem_map] at hn
  obtain ⟨m, hm, hfm⟩ := hn
  by_cases hid : m.id = nid
  · right
    have hb : (m.id == nid) = true := beq_iff_eq.mpr hid
    refine ⟨m, hm, ?_, ?_⟩
    · rw [← hfm]
      simp [hb]
    · rw [← hfm]
      simp [hb]
  · left
    have hb : (m.id == nid) = false := beq_eq_false_iff_ne.mpr hid
    rw [← hfm]
    simp [hb]
    exact hm

/-- Shape of the node list after one `upsert_software`: each node is an
untouched old node, the new SW_BASE node, the new SW_INSTALLATION node, an
old node with `last_seen` rewritten to the run timestamp, or (in principle)
the new SW_BASE node with `last_seen` rewritten. -/
theorem upsert_nodes_cases (cfg : Cfg) (sysNode : Nat) (st : Store) (sw : SwFact) :
    ∀ n ∈ (upsert_software cfg sysNode st sw).nodes,
      n ∈ st.nodes
        ∨ n.attrs = baseAttrs sw
        ∨ n.attrs = instAttrs cfg.now
        ∨ (∃ m, m ∈ st.nodes ∧ n.id = m.id ∧ n.attrs = setAttr m.attrs "last_seen" cfg.now)
        ∨ n.attrs = setAttr (baseAttrs sw) "last_seen" cfg.now := by
  intro n hn
  cases hbase : unfoldRows (matchSwBase st sw) with
  | some b =>
    have hB := ensure_base_found hbase
    cases hinst : unfoldRows (matchInst st cfg.sysId sw) with
    | some i =>
      rw [upsert_eq_found hB hinst] at hn
      rcases setNodeAttr_nodes_cases st i.id "last_seen" cfg.now n hn with h | ⟨m, hm, h1, h2⟩
      · exact Or.inl h
      · exact Or.inr (Or.inr (Or.inr (Or.inl ⟨m, hm, h1, h2⟩)))
    | none =>
      rw [upsert_eq_create hB hinst] at hn
      simp only [List.mem_append, List.mem_singleton] at hn
      rcases hn with h | h
      · exact Or.inl h
      · exact Or.inr (Or.inr (Or.inl (by rw [h])))
  | none =>
    have hB := ensure_base_create hbase
    cases hinst : unfoldRows (matchInst
        (addLabel (createNode st (baseAttrs sw)).1 "SW_BASE" st.nextId) cfg.sysId sw) with
    | some i =>
      rw [upsert_eq_found hB hinst] at hn
      rcases setNodeAttr_nodes_cases _ i.id "last_seen" cfg.now n hn with h | ⟨m, hm, h1, h2⟩
      · rcases List.mem_append.mp h with h' | h'
        · exact Or.inl h'
        · refine Or.inr (Or.inl ?_)
          rw [List.mem_singleton.mp h']
      · rcases List.mem_append.mp hm with h' | h'
        · exact Or.inr (Or.inr (Or.inr (Or.inl ⟨m, h', h1, h2⟩)))
        · refine Or.inr (Or.inr (Or.inr (Or.inr ?_)))
          rw [h2, List.mem_singleton.mp h']
    | none =>
      rw [upsert_eq_create hB hinst] at hn
      rcases List.mem_append.mp hn with h | h
      · rcases List.mem_append.mp h with h' | h'
        · exact Or.inl h'
        · exact Or.inr (Or.inl (by rw [List.mem_singleton.mp h']))
      · exact Or.inr (Or.inr (Or.inl (by rw [List.mem_singleton.mp h])))

/-- `get_sys` keeps the node list or appends exactly the one new System
node; it never rewrites an existing node. -/
theorem get_sys_nodes (cfg : Cfg) (st : Store) :
    (get_sys cfg st).1.nodes = st.nodes
      ∨ (get_sys cfg st).1.nodes
          = st.nodes ++ [⟨st.nextId, [("name", cfg.hostname), ("guid", cfg.sysId)]⟩] := by
  cases h : unfoldRows (matchSystem st cfg.sysId) with
  | none =>
    right
    simp [get_sys, h, createNode, addLabel]
  | some n =>
    left
    simp [get_sys, h]

/-- One `upsert_software` step: every node's `vanished` property is carried
over from the previous store, or is the creation value "0", or is absent. -/
theorem vanished_upsert (cfg : Cfg) (sysNode : Nat) (st : Store) (sw : SwFact) :
    ∀ n ∈ (upsert_software cfg sysNode st sw).nodes,
      (∃ m, m ∈ st.nodes ∧ m.id = n.id
          ∧ n.attrs.lookup "vanished" = m.attrs.lookup "vanished")
        ∨ n.attrs.lookup "vanished" = some "0"
        ∨ n.attrs.lookup "vanished" = Option.none := by
  intro n hn
  rcases upsert_nodes_cases cfg sysNode st sw n hn with h | h | h | ⟨m, hm, h1, h2⟩ | h
  · exact Or.inl ⟨n, h, rfl, rfl⟩
  · right; right
    rw [h]
    simp [baseAttrs, List.lookup]
  · right; left
    rw [h]
    simp [instAttrs, List.lookup]
  · exact Or.inl ⟨m, hm, h1.symm,
      by rw [h2]; exact lookup_setAttr_ne m.attrs "last_seen" "vanished" cfg.now (by decide)⟩
  · right; right
    rw [h, lookup_setAttr_ne _ "last_seen" "vanished" _ (by decide)]
    simp [baseAttrs, List.lookup]

/-- The `vanished` frame property composes over a whole sequence of
`upsert_software` steps. -/
theorem vanished_fold (cfg : Cfg) (sysNode : Nat) :
    ∀ (facts : List SwFact) (st : Store),
      ∀ n ∈ (facts.foldl (fun s sw => upsert_software cfg sysNode s sw) st).nodes,
        (∃ m, m ∈ st.nodes ∧ m.id = n.id
            ∧ n.attrs.lookup "vanished" = m.attrs.lookup "vanished")
          ∨ n.attrs.lookup "vanished" = some "0"
          ∨ n.attrs.lookup "vanished" = Option.none := by
  intro facts
  induction facts with
  | nil => intro st n hn; exact Or.inl ⟨n, hn, rfl, rfl⟩
  | cons sw rest ih =>
    intro st n hn
    rw [List.foldl_cons] at hn
    rcases ih (upsert_software cfg sysNode st sw) n hn with ⟨m, hm, h1, h2⟩ | h | h
    · rcases vanished_upsert cfg sysNode st sw m hm with ⟨m2, hm2, h3, h4⟩ | h | h
      · exact Or.inl ⟨m2, hm2, h3.trans h1, h2.trans h4⟩
      · exact Or.inr (Or.inl (h2.trans h))
      · exact Or.inr (Or.inr (h2.trans h))
    · exact Or.inr (Or.inl h)
    · exact Or.inr (Or.inr h)

/-- Claim C8: no operation of a reconciliation run ever sets `vanished` to
anything but its creation value: after `get_sys` and any number of
`upsert_software` steps, every node's `vanished` property either equals what
some node of the same id had in the initial store, or is the string "0" it
was initialized with, or is absent (System and SoftwareBase nodes carry
none). In particular it is never written to a true value. -/
theorem reconcile_never_sets_vanished (cfg : Cfg) (st : Store) (facts : List SwFact) :
    ∀ n ∈ (reconcileRun cfg st facts).nodes,
      (∃ m, m ∈ st.nodes ∧ m.id = n.id
          ∧ n.attrs.lookup "vanished" = m.attrs.lookup "vanished")
        ∨ n.attrs.lookup "vanished" = some "0"
        ∨ n.attrs.lookup "vanished" = Option.none := by
  intro n hn
  have hn' : n ∈ (facts.foldl
      (fun s sw => upsert_software cfg (get_sys cfg st).2 s sw) (get_sys cfg st).1).nodes := hn
  rcases vanished_fold cfg (get_sys cfg st).2 facts (get_sys cfg st).1 n hn'
    with ⟨m, hm, h1, h2⟩ | h | h
  · rcases get_sys_nodes cfg st with he | he
    · rw [he] at hm
      exact Or.inl ⟨m, hm, h1, h2⟩
    · rw [he] at hm
      rcases List.mem_append.mp hm with h' | h'
      · exact Or.inl ⟨m, h', h1, h2⟩
      · right; right
        rw [h2, List.mem_singleton.mp h']
        simp [List.lookup]
  · exact Or.inr (Or.inl h)
  · exact Or.inr (Or.inr h)

/-- One `upsert_software` step with the run timestamp `cfg.now` preserves the
invariant that every node created during the run (id at or above the
watermark `a`) either has no `discovered` property or has `discovered =
last_seen = cfg.now`. -/
theorem ts_upsert (cfg : Cfg) (sysNode : Nat) (st : Store) (sw : SwFact) (a : Nat)
    (hInv : ∀ n ∈ st.nodes, a ≤ n.id →
      n.attrs.lookup "discovered" = Option.none
        ∨ (n.attrs.lookup "discovered" = some cfg.now
            ∧ n.attrs.lookup "last_seen" = some cfg.now)) :
    ∀ n ∈ (upsert_software cfg sysNode st sw).nodes, a ≤ n.id →
      n.attrs.lookup "discovered" = Option.none
        ∨ (n.attrs.lookup "discovered" = some cfg.now
            ∧ n.attrs.lookup "last_seen" = some cfg.now) := by
  intro n hn hid
  rcases upsert_nodes_cases cfg sysNode st sw n hn with h | h | h | ⟨m, hm, h1, h2⟩ | h
  · exact hInv n h hid
  · left
    rw [h]
    simp [baseAttrs, List.lookup]
  · right
    rw [h]
    constructor <;> simp [instAttrs, List.lookup]
  · rcases hInv m hm (h1 ▸ hid) with hd | ⟨hd, hl⟩
    · left
      rw [h2, lookup_setAttr_ne _ "last_seen" "discovered" _ (by decide)]
      exact hd
    · right
      refine ⟨?_, ?_⟩
      · rw [h2, lookup_setAttr_ne _ "last_seen" "discovered" _ (by decide)]
        exact hd
      · rw [h2]
        exact lookup_setAttr_self m.attrs "last_seen" cfg.now
  · left
    rw [h, lookup_setAttr_ne _ "last_seen" "discovered" _ (by decide)]
    simp [baseAttrs, List.lookup]

/-- The run-timestamp invariant composes over a whole sequence of
`upsert_software` steps. -/
theorem ts_fold (cfg : Cfg) (sysNode : Nat) (a : Nat) :
    ∀ (facts : List SwFact) (st : Store),
      (∀ n ∈ st.nodes, a ≤ n.id →
        n.attrs.lookup "discovered" = Option.none
          ∨ (n.attrs.lookup "discovered" = some cfg.now
              ∧ n.attrs.lookup "last_seen" = some cfg.now)) →
      ∀ n ∈ (facts.foldl (fun s sw => upsert_software cfg sysNode s sw) st).nodes, a ≤ n.id →
        n.attrs.lookup "discovered" = Option.none
          ∨ (n.attrs.lookup "discovered" = some cfg.now
              ∧ n.attrs.lookup "last_seen" = some cfg.now) := by
  intro facts
  induction facts with
  | nil => intro st hInv n hn hid; exact hInv n hn hid
  | cons sw rest ih =>
    intro st hInv n hn hid
    rw [List.foldl_cons] at hn
    exact ih (upsert_software cfg sysNode st sw) (ts_upsert cfg sysNode st sw a hInv) n hn hid

/-- Claim C10: the timestamp written to `discovered` and `last_seen` is the
single `self._now` captured at `OsQuery` construction and reused for every
fact of the run: starting from any well-formed store, every node created
during one run (id at or above the starting id counter) that carries a
`discovered` property has `discovered = last_seen = cfg.now`, even after
same-run refreshes, which rewrite `last_seen` to that same construction-time
value rather than a fresh wall-clock time. -/
theorem run_timestamps_from_construction (cfg : Cfg) (st : Store) (facts : List SwFact)
    (hwf : WfStore st) :
    ∀ n ∈ (reconcileRun cfg st facts).nodes, st.nextId ≤ n.id →
      n.attrs.lookup "discovered" = Option.none
        ∨ (n.attrs.lookup "discovered" = some cfg.now
            ∧ n.attrs.lookup "last_seen" = some cfg.now) := by
  intro n hn hid
  have hn' : n ∈ (facts.foldl
      (fun s sw => upsert_software cfg (get_sys cfg st).2 s sw) (get_sys cfg st).1).nodes := hn
  refine ts_fold cfg (get_sys cfg st).2 st.nextId facts (get_sys cfg st).1 ?_ n hn' hid
  intro m hm hmid
  rcases get_sys_nodes cfg st with he | he
  · rw [he] at hm
    exact absurd hmid (Nat.not_le_of_lt (hwf m hm))
  · rw [he] at hm
    rcases List.mem_append.mp hm with h' | h'
    · exact absurd hmid (Nat.not_le_of_lt (hwf m h'))
    · left
      rw [List.mem_singleton.mp h']
      simp [List.lookup]


theorem reconcile_never_sets_vanished_witness :
    (∃ m, m ∈ stEmpty.nodes ∧ m.id = 2
        ∧ (GNode.mk 2 (instAttrs "t0")).attrs.lookup "vanished" = m.attrs.lookup "vanished")
      ∨ (GNode.mk 2 (instAttrs "t0")).attrs.lookup "vanished" = some "0"
      ∨ (GNode.mk 2 (instAttrs "t0")).attrs.lookup "vanished" = Option.none :=
  reconcile_never_sets_vanished ⟨"AFFE001", "alpha", "t0"⟩ stEmpty
    [⟨"curl", "/usr/bin/curl", "7.64.1", "apt"⟩] ⟨2, instAttrs "t0"⟩ (by decide)

theorem run_timestamps_from_construction_witness :
    (GNode.mk 2 (instAttrs "t0")).attrs.lookup "discovered" = Option.none
      ∨ ((GNode.mk 2 (instAttrs "t0")).attrs.lookup "discovered" = some "t0"
          ∧ (GNode.mk 2 (instAttrs "t0")).attrs.lookup "last_seen" = some "t0") :=
  run_timestamps_from_construction ⟨"AFFE001", "alpha", "t0"⟩ stEmpty
    [⟨"curl", "/usr/bin/curl", "7.64.1", "apt"⟩]
    (fun n hn => absurd hn (List.not_mem_nil n))
    ⟨2, instAttrs "t0"⟩ (by decide) (by decide)
